import Mathlib

set_option maxRecDepth 2000

/-!
Shallow embedding of the instruction-builder core of the cookthecoin client
library (src/instructionBuilder.js, src/constants.js).

Modelling conventions:
* Byte buffers are `List Nat` with entries below 256.
* A mint is identified by its raw 32 address bytes (in the source a seed's
  `mint` is a base58 string and `new PublicKey(mint).toBuffer()` yields these
  bytes; base58 text and byte form determine each other, and every use in the
  source goes through the byte form).
* JavaScript functions that can throw are `Except String`; `useRecipe`
  additionally returns `Option` because the source can `return null`.
* Loosely-typed object fields that the source tests for presence/truthiness
  are `Option` fields; a missing field is `none`, and for string fields the
  empty string is the only other falsy value.
* `PublicKey.findProgramAddressSync([digest], PROGRAM_ID)` (an off-curve
  search, ed25519) is outside the embedding; no claim inspects the derived
  address value, so a derived address is represented abstractly as a function
  of the 32-byte digest (`Pubkey.pdaOf`, `Pubkey.metadataOf`), and the `pda`
  field written by `validateCookedData` stores the digest that determines it.
* `toBaseUnits` computes with IEEE-754 doubles (`parseFloat`,
  `Math.floor(x * 10 ** 6)`), which the embedding does not model; `useRecipe`
  is therefore parametric in the conversion function.
-/

/-- Little-endian byte serialization: the `k` low-order bytes of `n`,
least significant first (the semantics of Node `writeUInt32LE` /
`writeBigUInt64LE` for an in-range value). -/
def bytesLE : Nat → Nat → List Nat
  | 0, _ => []
  | k + 1, n => (n % 256) :: bytesLE k (n / 256)

/-- Big-endian byte serialization of `n` on `k` bytes. -/
def bytesBE (k n : Nat) : List Nat :=
  (bytesLE k n).reverse

/-- Unsigned little-endian interpretation of a byte list (used to state the
round-trip property of the 8-byte encoder). -/
def decodeU64LE (bs : List Nat) : Nat :=
  bs.foldr (fun b acc => b + 256 * acc) 0

/-- UTF-8 encoding of one character, from its code point (the byte-level
behavior of `Buffer.from(str, "utf-8")` / `TextEncoder`). -/
def utf8Char (c : Char) : List Nat :=
  let n := c.toNat
  if n < 128 then [n]
  else if n < 2048 then [192 + n / 64, 128 + n % 64]
  else if n < 65536 then [224 + n / 4096, 128 + (n / 64) % 64, 128 + n % 64]
  else [240 + n / 262144, 128 + (n / 4096) % 64, 128 + (n / 64) % 64, 128 + n % 64]

/-- UTF-8 byte encoding of a string. -/
def utf8Bytes (s : String) : List Nat :=
  s.data.flatMap utf8Char

/-- Right rotation of a 32-bit word. -/
def rotr (n x : Nat) : Nat :=
  x / 2 ^ n + (x % 2 ^ n) * 2 ^ (32 - n)

/-- SHA-256 sigma-0 (message schedule). -/
def smallSigma0 (x : Nat) : Nat := rotr 7 x ^^^ rotr 18 x ^^^ x / 8

/-- SHA-256 sigma-1 (message schedule). -/
def smallSigma1 (x : Nat) : Nat := rotr 17 x ^^^ rotr 19 x ^^^ x / 1024

/-- SHA-256 Sigma-0 (compression). -/
def bigSigma0 (x : Nat) : Nat := rotr 2 x ^^^ rotr 13 x ^^^ rotr 22 x

/-- SHA-256 Sigma-1 (compression). -/
def bigSigma1 (x : Nat) : Nat := rotr 6 x ^^^ rotr 11 x ^^^ rotr 25 x

/-- The eight 32-bit words of a SHA-256 hash state. -/
structure Hash8 where
  (w0 w1 w2 w3 w4 w5 w6 w7 : Nat)
deriving DecidableEq, Repr

/-- The SHA-256 round constants. -/
def shaK : List Nat :=
  [1116352408, 1899447441, 3049323471, 3921009573, 961987163, 1508970993,
   2453635748, 2870763221, 3624381080, 310598401, 607225278, 1426881987,
   1925078388, 2162078206, 2614888103, 3248222580, 3835390401, 4022224774,
   264347078, 604807628, 770255983, 1249150122, 1555081692, 1996064986,
   2554220882, 2821834349, 2952996808, 3210313671, 3336571891, 3584528711,
   113926993, 338241895, 666307205, 773529912, 1294757372, 1396182291,
   1695183700, 1986661051, 2177026350, 2456956037, 2730485921, 2820302411,
   3259730800, 3345764771, 3516065817, 3600352804, 4094571909, 275423344,
   430227734, 506948616, 659060556, 883997877, 958139571, 1322822218,
   1537002063, 1747873779, 1955562222, 2024104815, 2227730452, 2361852424,
   2428436474, 2756734187, 3204031479, 3329325298]

/-- The SHA-256 initial hash state. -/
def shaH0 : Hash8 :=
  ⟨1779033703, 3144134277, 1013904242, 2773480762, 1359893119, 2600822924, 528734635, 1541459225⟩

/-- Big-endian 32-bit words from a list of bytes. -/
def toWords : List Nat → List Nat
  | b0 :: b1 :: b2 :: b3 :: rest => (((b0 * 256 + b1) * 256 + b2) * 256 + b3) :: toWords rest
  | _ => []

/-- SHA-256 message-schedule extension; the word list is kept newest-first. -/
def extendW : Nat → List Nat → List Nat
  | 0, ws => ws
  | k + 1, ws =>
    let w := (smallSigma1 (ws.getD 1 0) + ws.getD 6 0 + smallSigma0 (ws.getD 14 0) +
      ws.getD 15 0) % 4294967296
    extendW k (w :: ws)

/-- The 64-word SHA-256 message schedule of one 64-byte block. -/
def schedule (block : List Nat) : List Nat :=
  (extendW 48 (toWords block).reverse).reverse

/-- One SHA-256 compression round. -/
def shaRound (st : Hash8) (w k : Nat) : Hash8 :=
  let ch := (st.w4 &&& st.w5) ^^^ ((4294967295 ^^^ st.w4) &&& st.w6)
  let t1 := (st.w7 + bigSigma1 st.w4 + ch + k + w) % 4294967296
  let maj := (st.w0 &&& st.w1) ^^^ (st.w0 &&& st.w2) ^^^ (st.w1 &&& st.w2)
  let t2 := (bigSigma0 st.w0 + maj) % 4294967296
  ⟨(t1 + t2) % 4294967296, st.w0, st.w1, st.w2, (st.w3 + t1) % 4294967296, st.w4, st.w5, st.w6⟩

/-- Folds the 64 compression rounds over the schedule and round constants. -/
def shaRounds : Hash8 → List Nat → List Nat → Hash8
  | st, w :: ws, k :: ks => shaRounds (shaRound st w k) ws ks
  | st, _, _ => st

/-- SHA-256 compression of one 64-byte block into the running state. -/
def compressBlock (st : Hash8) (block : List Nat) : Hash8 :=
  let f := shaRounds st (schedule block) shaK
  ⟨(st.w0 + f.w0) % 4294967296, (st.w1 + f.w1) % 4294967296, (st.w2 + f.w2) % 4294967296,
   (st.w3 + f.w3) % 4294967296, (st.w4 + f.w4) % 4294967296, (st.w5 + f.w5) % 4294967296,
   (st.w6 + f.w6) % 4294967296, (st.w7 + f.w7) % 4294967296⟩

/-- Splits a byte list into 64-byte blocks (fuel-recursive so that it reduces
in the kernel; the fuel is an upper bound on the number of blocks). -/
def chunks64Go : Nat → List Nat → List (List Nat)
  | 0, _ => []
  | _, [] => []
  | k + 1, l => l.take 64 :: chunks64Go k (l.drop 64)

/-- Splits a byte list into 64-byte blocks. -/
def chunks64 (l : List Nat) : List (List Nat) :=
  chunks64Go l.length l

/-- SHA-256 padding: a 0x80 byte, zeros to 56 mod 64, then the bit length on
8 big-endian bytes. -/
def padMessage (msg : List Nat) : List Nat :=
  msg ++ 128 :: (List.replicate ((64 - (msg.length + 9) % 64) % 64) 0 ++ bytesBE 8 (8 * msg.length))

/-- The 32 big-endian digest bytes of a hash state. -/
def stateBytes (st : Hash8) : List Nat :=
  bytesBE 4 st.w0 ++ bytesBE 4 st.w1 ++ bytesBE 4 st.w2 ++ bytesBE 4 st.w3 ++
  bytesBE 4 st.w4 ++ bytesBE 4 st.w5 ++ bytesBE 4 st.w6 ++ bytesBE 4 st.w7

/-- SHA-256 of a byte list (the model of Node `createHash("sha256")`;
validated against the FIPS 180-4 test vectors for "", "abc" and
"abcdbcdecdefdefgefghfghighijhijkijkljklmklmnlmnomnopnopq"). -/
def sha256 (msg : List Nat) : List Nat :=
  stateBytes ((chunks64 (padMessage msg)).foldl compressBlock shaH0)

/-- Lexicographic byte comparison, the semantics of `Buffer.compare` used as
the seed sort comparator. -/
def compareBytes : List Nat → List Nat → Ordering
  | [], [] => .eq
  | [], _ :: _ => .lt
  | _ :: _, [] => .gt
  | a :: as, b :: bs => if a < b then .lt else if b < a then .gt else compareBytes as bs

/-- One seed of a recipe: the raw 32 mint address bytes and the quantity in
base units (the source carries the quantity as a decimal string or number
and converts with `BigInt`; the numeric value is what matters). -/
structure Seed where
  mint : List Nat
  amount_u64 : Nat
deriving DecidableEq, Repr

/-- The sort order on seeds: ascending byte-wise mint comparison, the
comparator `(a, b) => Buffer.compare(a.mint bytes, b.mint bytes)` of the
source (a stable JavaScript sort under this comparator yields the same list
as a stable sort under the relation `compare ≠ gt`). -/
def seedLeP (a b : Seed) : Prop :=
  compareBytes a.mint b.mint ≠ Ordering.gt

instance : DecidableRel seedLeP := fun a b =>
  inferInstanceAs (Decidable (compareBytes a.mint b.mint ≠ Ordering.gt))

/-- An account key. Constant program addresses stay in base58 text form;
seed mints are raw bytes; the two program-derived addresses are abstract
functions of the digest that determines them (see the module comment). -/
inductive Pubkey where
  | base58 (s : String)
  | bytes (b : List Nat)
  | pdaOf (digest : List Nat)
  | metadataOf (digest : List Nat)
deriving DecidableEq, Repr

/-- One entry of an instruction account list. -/
structure AccountMeta where
  pubkey : Pubkey
  isSigner : Bool
  isWritable : Bool
deriving DecidableEq, Repr

/-- A built Solana instruction: account list, program id, payload bytes. -/
structure TransactionInstruction where
  keys : List AccountMeta
  programId : Pubkey
  data : List Nat
deriving DecidableEq, Repr

/-- `PROGRAM_ID` from src/constants.js. -/
def PROGRAM_ID : Pubkey := .base58 "CooKTkMQ4V1zfr3faLVxgRwSYM86AWXsEbUC3aeDvXTe"

/-- `FEE_ACCOUNT_PUBKEY` from src/constants.js. -/
def FEE_ACCOUNT_PUBKEY : Pubkey := .base58 "9Hp3RaH2Ve5hG9sBY7shMUSEYy5JcDDRWood8umBgUNm"

/-- `CONFIG_ACCOUNT` from src/constants.js. -/
def CONFIG_ACCOUNT : Pubkey := .base58 "GBWBR3gpHvFwVbipxph5dXzjedo9S12yfrD4Hpe57PE7"

/-- `METADATA_PROGRAM_ID` from src/constants.js. -/
def METADATA_PROGRAM_ID : Pubkey := .base58 "metaqbxxUerdq28cj1RbAWkYQm3ybzjb6a8bt518x1s"

/-- `IPFS_GATEWAY` from src/constants.js. -/
def IPFS_GATEWAY : String := "https://ipfs.io/ipfs/"

/-- `SystemProgram.programId` of web3.js. -/
def systemProgramId : Pubkey := .base58 "11111111111111111111111111111111"

/-- `TOKEN_PROGRAM_ID` of spl-token. -/
def TOKEN_PROGRAM_ID : Pubkey := .base58 "TokenkegQfeZyiNwAJbNbGKPFXCWuBvf9Ss623VQ5DA"

/-- `SYSVAR_RENT_PUBKEY` of web3.js. -/
def SYSVAR_RENT_PUBKEY : Pubkey := .base58 "SysvarRent111111111111111111111111111111111"

/-- `encodeU32`: 4 little-endian bytes via `writeUInt32LE`, which raises
RangeError outside [0, 2^32). Its call sites pass list or byte lengths,
hence a natural number argument. -/
def encodeU32 (value : Nat) : Except String (List Nat) :=
  if value < 4294967296 then .ok (bytesLE 4 value)
  else .error "RangeError: value out of range for writeUInt32LE"

/-- `encodeU64`: 8 little-endian bytes via `BigInt` conversion and
`writeBigUInt64LE`, which raises RangeError for a negative value or one
exceeding 2^64 - 1. -/
def encodeU64 (value : Int) : Except String (List Nat) :=
  if 0 ≤ value ∧ value < 18446744073709551616 then .ok (bytesLE 8 value.toNat)
  else .error "RangeError: value out of range for writeBigUInt64LE"

/-- `encodeString`: UTF-8 bytes prefixed by their count as `encodeU32`. -/
def encodeString (str : String) : Except String (List Nat) :=
  match encodeU32 (utf8Bytes str).length with
  | .error e => .error e
  | .ok lenBuffer => .ok (lenBuffer ++ utf8Bytes str)

/-- The fixed 32-byte salt field: a zero-filled 32-byte buffer receiving at
most the first 32 UTF-8 bytes of the salt. Translates the identical snippets
at instructionBuilder.js lines 97-100 (findCookPDA), 157-159
(derivePDAFromCookedData), 241-243 (createRecipe) and 417-419 (useRecipe). -/
def encodeSalt32 (salt : String) : List Nat :=
  let b := utf8Bytes salt
  b.take (min b.length 32) ++ List.replicate (32 - min b.length 32) 0

/-- `findCookPDA`, reduced to its SHA-256 digest (the subsequent
`findProgramAddressSync` off-curve search is outside the embedding). -/
def findCookPDA (concatenatedData : List Nat) (salt : String) : List Nat :=
  sha256 (concatenatedData ++ encodeSalt32 salt)

/-- Decidable equality of `Except` values, so that concrete runs of the
fallible operations can be checked by evaluation. -/
instance instDecEqExcept {ε α : Type} [DecidableEq ε] [DecidableEq α] :
    DecidableEq (Except ε α) := fun x y =>
  match x, y with
  | .error a, .error b =>
    if h : a = b then .isTrue (congrArg Except.error h)
    else .isFalse (fun hh => h (Except.error.inj hh))
  | .error _, .ok _ => .isFalse (fun hh => Except.noConfusion hh)
  | .ok _, .error _ => .isFalse (fun hh => Except.noConfusion hh)
  | .ok a, .ok b =>
    if h : a = b then .isTrue (congrArg Except.ok h)
    else .isFalse (fun hh => h (Except.ok.inj hh))

/-- Discriminates the successful non-null results of an operation that can
fail or return null; used to extract concrete witnesses by evaluation. -/
def isOkSome {ε α : Type} : Except ε (Option α) → Bool
  | .ok (some _) => true
  | _ => false

/-- Discriminates the successful results of a fallible operation; used to
extract concrete witnesses by evaluation. -/
def isOkB {ε α : Type} : Except ε α → Bool
  | .ok _ => true
  | .error _ => false

/-- The seed chunk loop of `derivePDAFromCookedData` (lines 146-155): for
each seed, the 32 mint bytes then the quantity via `writeBigUInt64LE`,
concatenated; a quantity out of range propagates the RangeError. -/
def seedChunksE : List Seed → Except String (List Nat)
  | [] => .ok []
  | s :: rest =>
    (encodeU64 (s.amount_u64 : Int)).bind fun qtyBytes =>
      (seedChunksE rest).bind fun tail => .ok (s.mint ++ qtyBytes ++ tail)

/-- `derivePDAFromCookedData`, reduced to its SHA-256 digest: sorts a copy of
the seeds, concatenates the per-seed chunks and the 32-byte salt field, and
hashes. The source consumes an object carrying `seeds` and `salt`; those two
fields are the arguments here. -/
def derivePDAFromCookedData (seeds : List Seed) (salt : String) :
    Except String (List Nat) :=
  match seedChunksE (List.insertionSort seedLeP seeds) with
  | .error e => .error e
  | .ok chunks => .ok (sha256 (chunks ++ encodeSalt32 salt))

/-- The `cookedData` object of the create path. Fields the source tests for
presence or truthiness are `Option`; `pda` is the field `validateCookedData`
writes (the digest determining the derived address, see module comment). -/
structure CookedData where
  seeds : Option (List Seed)
  salt : Option String
  metadataCid : Option String
  name : Option String
  symbol : Option String
  pda : Option (List Nat)
deriving DecidableEq, Repr

/-- JavaScript truthiness of an optional string field: false for a missing
field and for the empty string. -/
def truthy : Option String → Bool
  | none => false
  | some s => !(s == "")

/-- The source's missing-field message for a field name. -/
def missingFieldMsg (field : String) : String :=
  "Invalid cookedData: Missing required field " ++ field ++ "."

/-- `validateCookedData`: required-field checks in source order (`seeds`,
`metadataCid`, `name`, `symbol` by truthiness — an empty `seeds` array is
truthy — then presence of `salt`), then the in-place sort of the seeds array
and the `pda` enrichment. The source mutates and returns the caller's own
object: the caller's object after a successful call IS the returned value,
with the seeds array reordered in place (line 78) and `pda` written
(line 83). The `isArray` and per-seed shape checks hold by typing here. -/
def validateCookedData (cookedData : CookedData) : Except String CookedData :=
  if cookedData.seeds.isNone then .error (missingFieldMsg "seeds")
  else if !truthy cookedData.metadataCid then .error (missingFieldMsg "metadataCid")
  else if !truthy cookedData.name then .error (missingFieldMsg "name")
  else if !truthy cookedData.symbol then .error (missingFieldMsg "symbol")
  else if cookedData.salt.isNone then .error (missingFieldMsg "salt")
  else
    match derivePDAFromCookedData (List.insertionSort seedLeP (cookedData.seeds.getD []))
        (cookedData.salt.getD "") with
    | .error e => .error e
    | .ok digest =>
      .ok { cookedData with
            seeds := some (List.insertionSort seedLeP (cookedData.seeds.getD [])),
            pda := some digest }

/-- `sortSeeds`: validates, then builds a NEW object (`{...cookedData}` with
a sorted copy `[...seeds].sort(...)` of the seeds array); the caller's object
is not written. -/
def sortSeeds (cookedData : CookedData) : Except String CookedData :=
  if cookedData.seeds.isNone then .error "Invalid cookedData: seeds must be an array."
  else
    .ok { cookedData with
          seeds := some (List.insertionSort seedLeP (cookedData.seeds.getD [])) }

/-- The amounts section loop shared by `createRecipe` (lines 234-236) and
`useRecipe` (lines 410-412): `Buffer.concat(amounts.map(encodeU64))`. -/
def encodeAmountsData : List Seed → Except String (List Nat)
  | [] => .ok []
  | s :: rest =>
    (encodeU64 (s.amount_u64 : Int)).bind fun b =>
      (encodeAmountsData rest).bind fun tail => .ok (b ++ tail)

/-- `createRecipe`: validates (which sorts the seeds and sets `pda`), then
builds the account list and the payload
`[0x01][u32 count][u64 qty]*[salt 32][name][symbol][uri]` with
`uri = IPFS_GATEWAY + metadataCid`. -/
def createRecipe (feePayerPubkey : Pubkey) (cookedData : CookedData) :
    Except String TransactionInstruction :=
  match validateCookedData cookedData with
  | .error e => .error e
  | .ok v =>
    let seeds := v.seeds.getD []
    let uri := IPFS_GATEWAY ++ v.metadataCid.getD ""
    let pdaDigest := v.pda.getD []
    let accounts : List AccountMeta :=
      [⟨feePayerPubkey, true, true⟩, ⟨FEE_ACCOUNT_PUBKEY, false, true⟩,
       ⟨CONFIG_ACCOUNT, false, false⟩, ⟨Pubkey.pdaOf pdaDigest, false, true⟩,
       ⟨Pubkey.metadataOf pdaDigest, false, true⟩, ⟨systemProgramId, false, false⟩,
       ⟨TOKEN_PROGRAM_ID, false, false⟩, ⟨SYSVAR_RENT_PUBKEY, false, false⟩,
       ⟨METADATA_PROGRAM_ID, false, false⟩] ++
      seeds.map (fun s => (⟨Pubkey.bytes s.mint, false, false⟩ : AccountMeta))
    match encodeU32 seeds.length with
    | .error e => .error e
    | .ok amountsLen =>
      match encodeAmountsData seeds with
      | .error e => .error e
      | .ok amountsData =>
        match encodeString (v.name.getD "") with
        | .error e => .error e
        | .ok nameData =>
          match encodeString (v.symbol.getD "") with
          | .error e => .error e
          | .ok symbolData =>
            match encodeString uri with
            | .error e => .error e
            | .ok uriData =>
              .ok { keys := accounts, programId := PROGRAM_ID,
                    data := 1 :: (amountsLen ++ amountsData ++
                      encodeSalt32 (v.salt.getD "") ++ nameData ++ symbolData ++ uriData) }

/-- The `cookedData` object of the cook/uncook path. -/
structure UseCookedData where
  pda : Option String
  seeds : Option (List Seed)
  seedSalt : Option String
  qty_requested : String
deriving DecidableEq, Repr

/-- `validateCookedDataForCooking`: truthiness of `pda` and `seeds` in source
order, then presence of `seedSalt` (the empty string is allowed). It neither
sorts nor copies: it returns the input. -/
def validateCookedDataForCooking (cookedData : UseCookedData) :
    Except String UseCookedData :=
  if !truthy cookedData.pda then .error (missingFieldMsg "pda")
  else if cookedData.seeds.isNone then .error (missingFieldMsg "seeds")
  else if cookedData.seedSalt.isNone then .error (missingFieldMsg "seedSalt")
  else .ok cookedData

/-- `useRecipe`: option tag check first, then validation, then the
account-count check — on mismatch the source logs and `return null`, modelled
as `.ok none` — then account list and payload
`[option][u32 count][u64 qty]*[salt 32][u64 convertedQuantity]`.
`toBaseUnits` (parseFloat and double multiplication, line 350-356) is IEEE-754
arithmetic outside the embedding, so it is a parameter: any conversion
function from the `qty_requested` string to the integer passed to
`encodeU64`. -/
def useRecipe (toBaseUnits : String → Except String Int) (feePayerPubkey : Pubkey)
    (cookedData : UseCookedData) (tokenAccounts : List Pubkey) (option : Nat) :
    Except String (Option TransactionInstruction) :=
  if !(option == 2 || option == 3) then
    .error "Invalid option. Must be 0x02 (cook) or 0x03 (uncook)."
  else
    match validateCookedDataForCooking cookedData with
    | .error e => .error e
    | .ok v =>
      let seeds := v.seeds.getD []
      if tokenAccounts.length != 2 * seeds.length + 2 then .ok none
      else
        let accounts : List AccountMeta :=
          [⟨feePayerPubkey, true, true⟩, ⟨FEE_ACCOUNT_PUBKEY, false, true⟩,
           ⟨CONFIG_ACCOUNT, false, false⟩, ⟨Pubkey.base58 (v.pda.getD ""), false, true⟩,
           ⟨systemProgramId, false, false⟩, ⟨TOKEN_PROGRAM_ID, false, false⟩,
           ⟨SYSVAR_RENT_PUBKEY, false, false⟩] ++
          seeds.map (fun s => (⟨Pubkey.bytes s.mint, false, false⟩ : AccountMeta))
        match encodeU32 seeds.length with
        | .error e => .error e
        | .ok amountsLen =>
          match encodeAmountsData seeds with
          | .error e => .error e
          | .ok amountsData =>
            match toBaseUnits cookedData.qty_requested with
            | .error e => .error e
            | .ok baseQty =>
              match encodeU64 baseQty with
              | .error e => .error e
              | .ok qtyRequestedBuf =>
                .ok (some
                  { keys := accounts ++
                      tokenAccounts.map (fun a => (⟨a, false, true⟩ : AccountMeta)),
                    programId := PROGRAM_ID,
                    data := option :: (amountsLen ++ amountsData ++
                      encodeSalt32 (v.seedSalt.getD "") ++ qtyRequestedBuf) })

/-! ## Basic facts about the byte-level encoders -/

theorem bytesLE_length : ∀ (k n : Nat), (bytesLE k n).length = k
  | 0, _ => rfl
  | k + 1, n => by simp [bytesLE, bytesLE_length k]

theorem decodeU64LE_cons (a : Nat) (l : List Nat) :
    decodeU64LE (a :: l) = a + 256 * decodeU64LE l := rfl

theorem decodeU64LE_bytesLE : ∀ (k n : Nat), decodeU64LE (bytesLE k n) = n % 256 ^ k
  | 0, n => by simp [bytesLE, decodeU64LE, Nat.mod_one]
  | k + 1, n => by
    rw [bytesLE, decodeU64LE_cons, decodeU64LE_bytesLE k (n / 256), pow_succ,
      mul_comm (256 ^ k) 256]
    exact Nat.mod_mul.symm

theorem stateBytes_length (st : Hash8) : (stateBytes st).length = 32 := by
  simp [stateBytes, bytesBE, bytesLE_length]

theorem sha256_length (msg : List Nat) : (sha256 msg).length = 32 := by
  rw [sha256]; exact stateBytes_length _

/-! ## The seed comparator is a total preorder -/

theorem compareBytes_swap : ∀ (a b : List Nat), compareBytes b a = (compareBytes a b).swap
  | [], [] => rfl
  | [], _ :: _ => rfl
  | _ :: _, [] => rfl
  | x :: xs, y :: ys => by
    simp only [compareBytes]
    by_cases hxy : x < y
    · simp [hxy, Nat.lt_asymm hxy, Ordering.swap]
    · by_cases hyx : y < x
      · simp [hxy, hyx, Ordering.swap]
      · simp only [if_neg hxy, if_neg hyx]
        exact compareBytes_swap xs ys

theorem compareBytes_le_trans : ∀ (a b c : List Nat),
    compareBytes a b ≠ .gt → compareBytes b c ≠ .gt → compareBytes a c ≠ .gt
  | [], _, c => by
    intro _ _
    cases c <;> simp [compareBytes]
  | x :: xs, [], c => by
    intro h1 _
    simp [compareBytes] at h1
  | x :: xs, y :: ys, [] => by
    intro _ h2
    simp [compareBytes] at h2
  | x :: xs, y :: ys, z :: zs => by
    intro h1 h2
    simp only [compareBytes] at h1 h2 ⊢
    by_cases hxy : x < y
    · have hyz : y ≤ z := by
        by_cases h : y < z
        · omega
        · by_cases h' : z < y
          · rw [if_neg h, if_pos h'] at h2
            exact absurd rfl h2
          · omega
      simp [show x < z by omega]
    · have hyx : ¬ y < x := by
        intro hyx
        rw [if_neg hxy, if_pos hyx] at h1
        exact h1 rfl
      have hx : x = y := by omega
      subst hx
      rw [if_neg hxy, if_neg hyx] at h1
      by_cases hxz : x < z
      · simp [hxz]
      · have hzx : ¬ z < x := by
          intro h
          rw [if_neg hxz, if_pos h] at h2
          exact h2 rfl
        rw [if_neg hxz, if_neg hzx] at h2 ⊢
        exact compareBytes_le_trans xs ys zs h1 h2

instance : IsTotal Seed seedLeP :=
  ⟨fun a b => by
    unfold seedLeP
    rcases h : compareBytes a.mint b.mint with _ | _ | _
    · left; simp [h]
    · left; simp [h]
    · right; rw [compareBytes_swap, h]; simp [Ordering.swap]⟩

instance : IsTrans Seed seedLeP :=
  ⟨fun _ _ _ h1 h2 => compareBytes_le_trans _ _ _ h1 h2⟩

/-! ## Success characterizations of the fallible encoders -/

theorem encodeU32_ok {n : Nat} {bs : List Nat} (h : encodeU32 n = .ok bs) :
    bs = bytesLE 4 n ∧ n < 4294967296 := by
  unfold encodeU32 at h
  split at h
  · injection h with h'
    exact ⟨h'.symm, by assumption⟩
  · exact Except.noConfusion h

theorem encodeU64_ok {v : Int} {bs : List Nat} (h : encodeU64 v = .ok bs) :
    bs = bytesLE 8 v.toNat ∧ 0 ≤ v ∧ v < 18446744073709551616 := by
  unfold encodeU64 at h
  split at h
  · injection h with h'
    exact ⟨h'.symm, by assumption⟩
  · exact Except.noConfusion h

theorem encodeU64_ofNat_ok {n : Nat} {bs : List Nat}
    (h : encodeU64 (n : Int) = .ok bs) :
    bs = bytesLE 8 n ∧ n < 18446744073709551616 := by
  obtain ⟨h1, _, h3⟩ := encodeU64_ok h
  refine ⟨by simpa using h1, ?_⟩
  omega

theorem encodeU64_ofNat_isOk {n : Nat} (h : n < 18446744073709551616) :
    encodeU64 (n : Int) = .ok (bytesLE 8 n) := by
  unfold encodeU64
  rw [if_pos ⟨Int.natCast_nonneg n, by omega⟩]
  simp

theorem encodeString_ok {s : String} {bs : List Nat} (h : encodeString s = .ok bs) :
    bs = bytesLE 4 (utf8Bytes s).length ++ utf8Bytes s := by
  unfold encodeString at h
  cases hu : encodeU32 (utf8Bytes s).length with
  | error e => rw [hu] at h; exact Except.noConfusion h
  | ok lb =>
    rw [hu] at h
    injection h with h'
    rw [← h', (encodeU32_ok hu).1]

theorem encodeAmountsData_ok : ∀ (l : List Seed) {bs : List Nat},
    encodeAmountsData l = .ok bs → bs = l.flatMap (fun s => bytesLE 8 s.amount_u64)
  | [], bs, h => by
    rw [← Except.ok.inj h]
    simp
  | s :: rest, bs, h => by
    rw [encodeAmountsData] at h
    cases h1 : encodeU64 (s.amount_u64 : Int) with
    | error e => rw [h1] at h; exact Except.noConfusion h
    | ok b =>
      rw [h1] at h
      cases h2 : encodeAmountsData rest with
      | error e => rw [h2] at h; exact Except.noConfusion h
      | ok tail =>
        rw [h2] at h
        rw [← Except.ok.inj h, (encodeU64_ofNat_ok h1).1,
          encodeAmountsData_ok rest h2]
        simp

theorem seedChunksE_ok : ∀ (l : List Seed) {bs : List Nat},
    seedChunksE l = .ok bs → bs = l.flatMap (fun s => s.mint ++ bytesLE 8 s.amount_u64)
  | [], bs, h => by
    rw [← Except.ok.inj h]
    simp
  | s :: rest, bs, h => by
    rw [seedChunksE] at h
    cases h1 : encodeU64 (s.amount_u64 : Int) with
    | error e => rw [h1] at h; exact Except.noConfusion h
    | ok b =>
      rw [h1] at h
      cases h2 : seedChunksE rest with
      | error e => rw [h2] at h; exact Except.noConfusion h
      | ok tail =>
        rw [h2] at h
        rw [← Except.ok.inj h, (encodeU64_ofNat_ok h1).1, seedChunksE_ok rest h2]
        simp

theorem seedChunksE_isOk : ∀ (l : List Seed),
    (∀ s ∈ l, s.amount_u64 < 18446744073709551616) →
    seedChunksE l = .ok (l.flatMap (fun s => s.mint ++ bytesLE 8 s.amount_u64))
  | [], _ => rfl
  | s :: rest, h => by
    rw [seedChunksE]
    rw [encodeU64_ofNat_isOk (h s (by simp))]
    rw [seedChunksE_isOk rest (fun t ht => h t (by simp [ht]))]
    rfl

theorem derivePDAFromCookedData_isOk (seeds : List Seed) (salt : String)
    (h : ∀ s ∈ seeds, s.amount_u64 < 18446744073709551616) :
    derivePDAFromCookedData seeds salt =
      .ok (sha256 ((List.insertionSort seedLeP seeds).flatMap
        (fun s => s.mint ++ bytesLE 8 s.amount_u64) ++ encodeSalt32 salt)) := by
  unfold derivePDAFromCookedData
  rw [seedChunksE_isOk _ (fun t ht => h t ((List.mem_insertionSort seedLeP).mp ht))]

theorem validateCookedData_ok {cd v : CookedData} (h : validateCookedData cd = .ok v) :
    ∃ d, v = { cd with
      seeds := some (List.insertionSort seedLeP (cd.seeds.getD [])),
      pda := some d } := by
  unfold validateCookedData at h
  split at h
  · exact Except.noConfusion h
  · split at h
    · exact Except.noConfusion h
    · split at h
      · exact Except.noConfusion h
      · split at h
        · exact Except.noConfusion h
        · split at h
          · exact Except.noConfusion h
          · split at h
            · exact Except.noConfusion h
            · exact ⟨_, (Except.ok.inj h).symm⟩

theorem validateCookedData_noSeeds {cd : CookedData} (h : cd.seeds = none) :
    validateCookedData cd = .error (missingFieldMsg "seeds") := by
  unfold validateCookedData
  rw [if_pos (by simp [h])]

theorem validateCookedData_isOk {cd : CookedData} {l : List Seed} {sa : String}
    (hs : cd.seeds = some l) (hm : truthy cd.metadataCid = true)
    (hn : truthy cd.name = true) (hy : truthy cd.symbol = true)
    (hsa : cd.salt = some sa)
    (hamt : ∀ s ∈ l, s.amount_u64 < 18446744073709551616) :
    validateCookedData cd = .ok { cd with
      seeds := some (List.insertionSort seedLeP l),
      pda := some (sha256 ((List.insertionSort seedLeP l).flatMap
        (fun s => s.mint ++ bytesLE 8 s.amount_u64) ++ encodeSalt32 sa)) } := by
  unfold validateCookedData
  rw [if_neg (by simp [hs]), if_neg (by simp [hm]), if_neg (by simp [hn]),
    if_neg (by simp [hy]), if_neg (by simp [hsa])]
  simp only [hs, hsa, Option.getD_some]
  unfold derivePDAFromCookedData
  rw [(List.sorted_insertionSort seedLeP l).insertionSort_eq]
  rw [seedChunksE_isOk _ (fun t ht => hamt t ((List.mem_insertionSort seedLeP).mp ht))]

theorem sortSeeds_some_ok {cd : CookedData} {l : List Seed} (h : cd.seeds = some l) :
    sortSeeds cd = .ok { cd with seeds := some (List.insertionSort seedLeP l) } := by
  unfold sortSeeds
  rw [if_neg (by simp [h])]
  simp [h]

theorem validateCookedDataForCooking_ok {cd v : UseCookedData}
    (h : validateCookedDataForCooking cd = .ok v) :
    v = cd ∧ truthy cd.pda = true ∧ cd.seeds ≠ none ∧ cd.seedSalt ≠ none := by
  unfold validateCookedDataForCooking at h
  split at h
  next => exact Except.noConfusion h
  next hp =>
    split at h
    next => exact Except.noConfusion h
    next hs =>
      split at h
      next => exact Except.noConfusion h
      next hss =>
        refine ⟨(Except.ok.inj h).symm, ?_, ?_, ?_⟩
        · simpa using hp
        · simpa using hs
        · simpa using hss

theorem useRecipe_ok {tb : String → Except String Int} {payer : Pubkey}
    {cd : UseCookedData} {ta : List Pubkey} {opt : Nat} {ix : TransactionInstruction}
    (h : useRecipe tb payer cd ta opt = .ok (some ix)) :
    ∃ (l : List Seed) (sa : String) (q : Int),
      cd.seeds = some l ∧ cd.seedSalt = some sa ∧
      tb cd.qty_requested = .ok q ∧
      ta.length = 2 * l.length + 2 ∧ l.length < 4294967296 ∧
      ix = { keys := [⟨payer, true, true⟩, ⟨FEE_ACCOUNT_PUBKEY, false, true⟩,
               ⟨CONFIG_ACCOUNT, false, false⟩,
               ⟨Pubkey.base58 (cd.pda.getD ""), false, true⟩,
               ⟨systemProgramId, false, false⟩, ⟨TOKEN_PROGRAM_ID, false, false⟩,
               ⟨SYSVAR_RENT_PUBKEY, false, false⟩] ++
              l.map (fun s => (⟨Pubkey.bytes s.mint, false, false⟩ : AccountMeta)) ++
              ta.map (fun a => (⟨a, false, true⟩ : AccountMeta)),
             programId := PROGRAM_ID,
             data := opt :: (bytesLE 4 l.length ++
               l.flatMap (fun s => bytesLE 8 s.amount_u64) ++
               encodeSalt32 sa ++ bytesLE 8 q.toNat) } := by
  unfold useRecipe at h
  split at h
  next => exact Except.noConfusion h
  next hopt =>
    cases hv : validateCookedDataForCooking cd with
    | error e => rw [hv] at h; exact Except.noConfusion h
    | ok v =>
      rw [hv] at h
      obtain ⟨hveq, hp, hs, hss⟩ := validateCookedDataForCooking_ok hv
      rw [hveq] at h
      simp only [] at h
      cases hseeds : cd.seeds with
      | none => exact absurd hseeds hs
      | some l =>
        cases hsalt : cd.seedSalt with
        | none => exact absurd hsalt hss
        | some sa =>
          rw [hseeds, hsalt] at h
          simp only [Option.getD_some] at h
          split at h
          next => exact Option.noConfusion (Except.ok.inj h)
          next hlen =>
            cases hu32 : encodeU32 l.length with
            | error e => rw [hu32] at h; exact Except.noConfusion h
            | ok lenB =>
              rw [hu32] at h
              simp only [] at h
              cases had : encodeAmountsData l with
              | error e => rw [had] at h; exact Except.noConfusion h
              | ok amounts =>
                rw [had] at h
                simp only [] at h
                cases htb : tb cd.qty_requested with
                | error e => rw [htb] at h; exact Except.noConfusion h
                | ok q =>
                  rw [htb] at h
                  simp only [] at h
                  cases hq : encodeU64 q with
                  | error e => rw [hq] at h; exact Except.noConfusion h
                  | ok qb =>
                    rw [hq] at h
                    simp only [] at h
                    refine ⟨l, sa, q, rfl, rfl, rfl, by simpa using hlen,
                      (encodeU32_ok hu32).2, ?_⟩
                    rw [← Option.some.inj (Except.ok.inj h)]
                    rw [(encodeU32_ok hu32).1, encodeAmountsData_ok l had,
                      (encodeU64_ok hq).1]

theorem isOkSome_iff {ε α : Type} (e : Except ε (Option α)) :
    isOkSome e = true → ∃ a, e = .ok (some a) := by
  cases e with
  | error e => simp [isOkSome]
  | ok o =>
    cases o with
    | none => simp [isOkSome]
    | some a => intro _; exact ⟨a, rfl⟩

theorem isOkB_iff {ε α : Type} (e : Except ε α) :
    isOkB e = true → ∃ a, e = .ok a := by
  cases e with
  | error e => simp [isOkB]
  | ok a => intro _; exact ⟨a, rfl⟩

/-! ## Claim theorems -/

/-- C7: for every salt string the encoded salt field is exactly 32 bytes:
the UTF-8 bytes when at most 32, zero-padded, and exactly the first 32 UTF-8
bytes (raw byte truncation) when longer. The unconditional right-hand side
covers both cases: for a short salt `take 32` is the whole encoding and the
replicate pads with zeros; for a long salt the replicate count is zero. -/
theorem encodeSalt32_fixed_width (salt : String) :
    encodeSalt32 salt =
      (utf8Bytes salt).take 32 ++ List.replicate (32 - (utf8Bytes salt).length) 0 ∧
    (encodeSalt32 salt).length = 32 := by
  have hz : encodeSalt32 salt =
      List.take (min (utf8Bytes salt).length 32) (utf8Bytes salt) ++
        List.replicate (32 - min (utf8Bytes salt).length 32) 0 := rfl
  rw [hz]
  constructor
  · rcases Nat.le_total (utf8Bytes salt).length 32 with h | h
    · rw [min_eq_left h, List.take_length, List.take_of_length_le h]
    · rw [min_eq_right h, Nat.sub_self,
        show (32 : Nat) - (utf8Bytes salt).length = 0 from by omega]
  · rcases Nat.le_total (utf8Bytes salt).length 32 with h | h
    · rw [min_eq_left h, List.take_length, List.length_append, List.length_replicate]
      omega
    · rw [min_eq_right h, List.length_append, List.length_take_of_le h,
        List.length_replicate]

/-- C9: for x in [0, 2^64 - 1], `encodeU64 x` yields exactly 8 bytes whose
little-endian unsigned interpretation is x; for negative x or x above
2^64 - 1 it fails with the RangeError. -/
theorem encodeU64_roundtrip (x : Int) :
    ((0 ≤ x ∧ x < 18446744073709551616) →
      ∃ bs, encodeU64 x = .ok bs ∧ bs.length = 8 ∧ (decodeU64LE bs : Int) = x) ∧
    ((x < 0 ∨ 18446744073709551616 ≤ x) →
      encodeU64 x = .error "RangeError: value out of range for writeBigUInt64LE") := by
  constructor
  · rintro ⟨h0, h1⟩
    refine ⟨bytesLE 8 x.toNat, ?_, bytesLE_length 8 _, ?_⟩
    · unfold encodeU64
      rw [if_pos ⟨h0, h1⟩]
    · rw [decodeU64LE_bytesLE]
      have hx : x.toNat < 256 ^ 8 := by omega
      rw [Nat.mod_eq_of_lt hx, Int.toNat_of_nonneg h0]
  · intro h
    unfold encodeU64
    rw [if_neg]
    rintro ⟨h0, h1⟩
    omega

/-- Witness for C9 at the concrete inputs 3 and -1. -/
theorem encodeU64_roundtrip_witness :
    (∃ bs, encodeU64 3 = .ok bs ∧ bs.length = 8 ∧ (decodeU64LE bs : Int) = 3) ∧
    encodeU64 (-1) = .error "RangeError: value out of range for writeBigUInt64LE" :=
  ⟨(encodeU64_roundtrip 3).1 (by constructor <;> decide),
   (encodeU64_roundtrip (-1)).2 (by left; decide)⟩

/-- C1: every digest `derivePDAFromCookedData` returns is 32 bytes and is the
SHA-256 of the seeds arranged in ascending byte-wise mint order (each seed as
its raw mint bytes followed by its quantity on 8 little-endian bytes),
followed by the fixed 32-byte salt field; in particular for the single seed
(M1, 1000000) and salt "random-salt" the digest is SHA-256 of M1, then
1000000 on 8 little-endian bytes, then "random-salt" zero-padded to 32
bytes. -/
theorem derive_digest_spec :
    (∀ (seeds : List Seed) (salt : String) (digest : List Nat),
      derivePDAFromCookedData seeds salt = .ok digest →
      digest.length = 32 ∧
      ∃ arr : List Seed, arr.Perm seeds ∧ List.Sorted seedLeP arr ∧
        digest = sha256 (arr.flatMap (fun s => s.mint ++ bytesLE 8 s.amount_u64) ++
          encodeSalt32 salt)) ∧
    (∀ m1 : List Nat, m1.length = 32 →
      derivePDAFromCookedData [⟨m1, 1000000⟩] "random-salt" =
        .ok (sha256 (m1 ++ bytesLE 8 1000000 ++
          (utf8Bytes "random-salt" ++ List.replicate 21 0)))) := by
  constructor
  · intro seeds salt digest h
    unfold derivePDAFromCookedData at h
    cases hc : seedChunksE (List.insertionSort seedLeP seeds) with
    | error e => rw [hc] at h; exact Except.noConfusion h
    | ok chunks =>
      rw [hc] at h
      refine ⟨?_, List.insertionSort seedLeP seeds,
        List.perm_insertionSort seedLeP seeds,
        List.sorted_insertionSort seedLeP seeds, ?_⟩
      · rw [← Except.ok.inj h]
        exact sha256_length _
      · rw [← Except.ok.inj h, seedChunksE_ok _ hc]
  · intro m1 _
    rw [derivePDAFromCookedData_isOk [⟨m1, 1000000⟩] "random-salt" (by
      intro s hs
      simp at hs
      subst hs
      show (1000000 : Nat) < 18446744073709551616
      decide)]
    have hsalt : encodeSalt32 "random-salt" =
        utf8Bytes "random-salt" ++ List.replicate 21 0 := by decide
    simp [hsalt, List.insertionSort, List.append_assoc]

/-- Witness for C1: the general statement instantiated at the single seed
(mint `replicate 32 7`, quantity 1000000) and salt "random-salt"; its
hypothesis is discharged by the concrete part of the theorem itself. -/
theorem derive_digest_spec_witness :
    (sha256 (List.replicate 32 7 ++ bytesLE 8 1000000 ++
      (utf8Bytes "random-salt" ++ List.replicate 21 0))).length = 32 ∧
    ∃ arr : List Seed, arr.Perm [⟨List.replicate 32 7, 1000000⟩] ∧
      List.Sorted seedLeP arr ∧
      sha256 (List.replicate 32 7 ++ bytesLE 8 1000000 ++
        (utf8Bytes "random-salt" ++ List.replicate 21 0)) =
      sha256 (arr.flatMap (fun s => s.mint ++ bytesLE 8 s.amount_u64) ++
        encodeSalt32 "random-salt") :=
  derive_digest_spec.1 [⟨List.replicate 32 7, 1000000⟩] "random-salt" _
    (derive_digest_spec.2 (List.replicate 32 7) (by decide))

/-- C3 (the code as it is): with one seed and an empty token-account list
(length 0, expected 2*1+2 = 4), useRecipe returns null (`.ok none`) instead
of raising an error — evaluating the model at the failing input. -/
theorem useRecipe_mismatch_returns_null :
    useRecipe (fun _ => .ok 0) (Pubkey.base58 "payer")
      { pda := some "RecipePda",
        seeds := some [⟨List.replicate 32 1, 5⟩],
        seedSalt := some "", qty_requested := "1" }
      [] 2 = .ok none := by decide

/-- C10: for an option tag other than 0x02 and 0x03, useRecipe fails with the
invalid-option error whatever the other arguments are (the check is the first
thing it does), and never returns an instruction; when it does return an
instruction, the payload byte at offset 0 is exactly the option tag. -/
theorem useRecipe_option_gate :
    (∀ (tb : String → Except String Int) (payer : Pubkey) (cd : UseCookedData)
      (ta : List Pubkey) (opt : Nat), ¬(opt = 2 ∨ opt = 3) →
      useRecipe tb payer cd ta opt =
        .error "Invalid option. Must be 0x02 (cook) or 0x03 (uncook).") ∧
    (∀ (tb : String → Except String Int) (payer : Pubkey) (cd : UseCookedData)
      (ta : List Pubkey) (opt : Nat) (ix : TransactionInstruction),
      useRecipe tb payer cd ta opt = .ok (some ix) →
      ix.data.head? = some opt) := by
  constructor
  · intro tb payer cd ta opt hopt
    unfold useRecipe
    rw [if_pos]
    simp only [Bool.not_eq_true', Bool.or_eq_false_iff, beq_eq_false_iff_ne]
    exact ⟨fun h => hopt (Or.inl h), fun h => hopt (Or.inr h)⟩
  · intro tb payer cd ta opt ix h
    obtain ⟨l, sa, q, _, _, _, _, _, hix⟩ := useRecipe_ok h
    rw [hix]
    rfl

/-- Witness for C10: option 5 is rejected with the invalid-option error even
on an input whose other fields are themselves invalid, and a successful cook
call (option 2) yields an instruction whose first payload byte is 2. -/
theorem useRecipe_option_gate_witness :
    useRecipe (fun _ => .ok 0) (Pubkey.base58 "payer")
      { pda := none, seeds := none, seedSalt := none, qty_requested := "" }
      [] 5 = .error "Invalid option. Must be 0x02 (cook) or 0x03 (uncook)." ∧
    ∃ ix, useRecipe (fun _ => .ok 2500000) (Pubkey.base58 "payer")
      { pda := some "RecipePda",
        seeds := some [⟨List.replicate 32 1, 5⟩],
        seedSalt := some "salty", qty_requested := "2.5" }
      [Pubkey.base58 "t1", Pubkey.base58 "t2", Pubkey.base58 "t3",
       Pubkey.base58 "t4"] 2 = .ok (some ix) ∧
      ix.data.head? = some 2 := by
  constructor
  · exact useRecipe_option_gate.1 (fun _ => .ok 0) (Pubkey.base58 "payer")
      { pda := none, seeds := none, seedSalt := none, qty_requested := "" }
      [] 5 (by omega)
  · have hd : isOkSome (useRecipe (fun _ => .ok 2500000) (Pubkey.base58 "payer")
        { pda := some "RecipePda",
          seeds := some [⟨List.replicate 32 1, 5⟩],
          seedSalt := some "salty", qty_requested := "2.5" }
        [Pubkey.base58 "t1", Pubkey.base58 "t2", Pubkey.base58 "t3",
         Pubkey.base58 "t4"] 2) = true := by decide
    obtain ⟨ix, hix⟩ := isOkSome_iff _ hd
    exact ⟨ix, hix, useRecipe_option_gate.2 _ _ _ _ 2 ix hix⟩

/-- C2: for every accepted input, the createRecipe payload is exactly the
opcode byte 0x01, the seed count as 4 little-endian bytes, each seed quantity
on 8 little-endian bytes (in the validated, sorted order), the fixed 32-byte
salt field, and the length-prefixed UTF-8 encodings of the name, the symbol
and the URI (gateway prefix concatenated with the metadata CID), with no
other bytes. -/
theorem createRecipe_payload_layout :
    ∀ (payer : Pubkey) (cd : CookedData) (ix : TransactionInstruction)
      (l : List Seed) (sa cid nm sy : String),
      cd.seeds = some l → cd.salt = some sa → cd.metadataCid = some cid →
      cd.name = some nm → cd.symbol = some sy →
      createRecipe payer cd = .ok ix →
      ix.data = 1 :: (bytesLE 4 l.length ++
        (List.insertionSort seedLeP l).flatMap (fun s => bytesLE 8 s.amount_u64) ++
        encodeSalt32 sa ++
        (bytesLE 4 (utf8Bytes nm).length ++ utf8Bytes nm) ++
        (bytesLE 4 (utf8Bytes sy).length ++ utf8Bytes sy) ++
        (bytesLE 4 (utf8Bytes (IPFS_GATEWAY ++ cid)).length ++
          utf8Bytes (IPFS_GATEWAY ++ cid))) := by
  intro payer cd ix l sa cid nm sy hs hsa hm hn hy h
  unfold createRecipe at h
  cases hv : validateCookedData cd with
  | error e => rw [hv] at h; exact Except.noConfusion h
  | ok v =>
    rw [hv] at h
    obtain ⟨d, hveq⟩ := validateCookedData_ok hv
    subst hveq
    simp only [] at h
    simp only [hs, hsa, hm, hn, hy, Option.getD_some] at h
    cases hu32 : encodeU32 (List.insertionSort seedLeP l).length with
    | error e => rw [hu32] at h; exact Except.noConfusion h
    | ok lenB =>
      rw [hu32] at h
      simp only [] at h
      cases had : encodeAmountsData (List.insertionSort seedLeP l) with
      | error e => rw [had] at h; exact Except.noConfusion h
      | ok amounts =>
        rw [had] at h
        simp only [] at h
        cases hnm : encodeString nm with
        | error e => rw [hnm] at h; exact Except.noConfusion h
        | ok nameD =>
          rw [hnm] at h
          simp only [] at h
          cases hsy2 : encodeString sy with
          | error e => rw [hsy2] at h; exact Except.noConfusion h
          | ok symD =>
            rw [hsy2] at h
            simp only [] at h
            cases huri : encodeString (IPFS_GATEWAY ++ cid) with
            | error e => rw [huri] at h; exact Except.noConfusion h
            | ok uriD =>
              rw [huri] at h
              simp only [] at h
              rw [← Except.ok.inj h]
              simp only []
              rw [(encodeU32_ok hu32).1, encodeAmountsData_ok _ had,
                encodeString_ok hnm, encodeString_ok hsy2, encodeString_ok huri,
                (List.perm_insertionSort seedLeP l).length_eq]

/-- Witness for C2: a one-seed recipe evaluated concretely; the layout
equation is the theorem instantiated at it. -/
theorem createRecipe_payload_layout_witness :
    ∃ ix, createRecipe (Pubkey.base58 "payer")
      { seeds := some [⟨List.replicate 32 3, 7⟩], salt := some "s",
        metadataCid := some "c", name := some "N", symbol := some "S",
        pda := none } = .ok ix ∧
      ix.data = 1 :: (bytesLE 4 ([(⟨List.replicate 32 3, 7⟩ : Seed)]).length ++
        (List.insertionSort seedLeP [⟨List.replicate 32 3, 7⟩]).flatMap
          (fun s => bytesLE 8 s.amount_u64) ++
        encodeSalt32 "s" ++
        (bytesLE 4 (utf8Bytes "N").length ++ utf8Bytes "N") ++
        (bytesLE 4 (utf8Bytes "S").length ++ utf8Bytes "S") ++
        (bytesLE 4 (utf8Bytes (IPFS_GATEWAY ++ "c")).length ++
          utf8Bytes (IPFS_GATEWAY ++ "c"))) := by
  have hd : isOkB (createRecipe (Pubkey.base58 "payer")
      { seeds := some [⟨List.replicate 32 3, 7⟩], salt := some "s",
        metadataCid := some "c", name := some "N", symbol := some "S",
        pda := none }) = true := by decide
  obtain ⟨ix, hix⟩ := isOkB_iff _ hd
  exact ⟨ix, hix, createRecipe_payload_layout (Pubkey.base58 "payer") _ ix
    [⟨List.replicate 32 3, 7⟩] "s" "c" "N" "S" rfl rfl rfl rfl rfl hix⟩

/-- C4 counterexample: two calls that differ only by a permutation of the
seeds yield different instructions: useRecipe keeps the caller-supplied
order, so the claim as stated is false on the code. -/
theorem useRecipe_not_perm_invariant :
    useRecipe (fun _ => .ok 0) (Pubkey.base58 "payer")
      { pda := some "P",
        seeds := some [⟨List.replicate 32 2, 222⟩, ⟨List.replicate 32 1, 111⟩],
        seedSalt := some "s", qty_requested := "1" }
      [Pubkey.base58 "t1", Pubkey.base58 "t2", Pubkey.base58 "t3",
       Pubkey.base58 "t4", Pubkey.base58 "t5", Pubkey.base58 "t6"] 2 ≠
    useRecipe (fun _ => .ok 0) (Pubkey.base58 "payer")
      { pda := some "P",
        seeds := some [⟨List.replicate 32 1, 111⟩, ⟨List.replicate 32 2, 222⟩],
        seedSalt := some "s", qty_requested := "1" }
      [Pubkey.base58 "t1", Pubkey.base58 "t2", Pubkey.base58 "t3",
       Pubkey.base58 "t4", Pubkey.base58 "t5", Pubkey.base58 "t6"] 2 := by decide

/-- C4 amended: useRecipe uses the seeds exactly in the caller-supplied
order — the per-seed quantity list of the payload and the per-seed mint
account entries follow the input order, with the token accounts appended in
their own caller order; no re-sorting happens on this path. -/
theorem useRecipe_caller_order :
    ∀ (tb : String → Except String Int) (payer : Pubkey) (cd : UseCookedData)
      (ta : List Pubkey) (opt : Nat) (ix : TransactionInstruction) (l : List Seed),
      cd.seeds = some l →
      useRecipe tb payer cd ta opt = .ok (some ix) →
      (∃ (sa : String) (q : Int), cd.seedSalt = some sa ∧
        tb cd.qty_requested = .ok q ∧
        ix.data = opt :: (bytesLE 4 l.length ++
          l.flatMap (fun s => bytesLE 8 s.amount_u64) ++ encodeSalt32 sa ++
          bytesLE 8 q.toNat)) ∧
      ix.keys = [⟨payer, true, true⟩, ⟨FEE_ACCOUNT_PUBKEY, false, true⟩,
          ⟨CONFIG_ACCOUNT, false, false⟩,
          ⟨Pubkey.base58 (cd.pda.getD ""), false, true⟩,
          ⟨systemProgramId, false, false⟩, ⟨TOKEN_PROGRAM_ID, false, false⟩,
          ⟨SYSVAR_RENT_PUBKEY, false, false⟩] ++
        l.map (fun s => (⟨Pubkey.bytes s.mint, false, false⟩ : AccountMeta)) ++
        ta.map (fun a => (⟨a, false, true⟩ : AccountMeta)) := by
  intro tb payer cd ta opt ix l hseeds h
  obtain ⟨lp, sa, q, hseedsp, hsalt, htb, _, _, hix⟩ := useRecipe_ok h
  have hl : lp = l := Option.some.inj (hseedsp.symm.trans hseeds)
  subst hl
  rw [hix]
  exact ⟨⟨sa, q, hsalt, htb, rfl⟩, rfl⟩

/-- Witness for C4's amended statement: a concrete two-seed call with the
seeds given in descending mint order; they stay in that order. -/
theorem useRecipe_caller_order_witness :
    ∃ ix, useRecipe (fun _ => .ok 5) (Pubkey.base58 "payer")
      { pda := some "P",
        seeds := some [⟨List.replicate 32 2, 222⟩, ⟨List.replicate 32 1, 111⟩],
        seedSalt := some "s", qty_requested := "1" }
      [Pubkey.base58 "t1", Pubkey.base58 "t2", Pubkey.base58 "t3",
       Pubkey.base58 "t4", Pubkey.base58 "t5", Pubkey.base58 "t6"] 2 =
      .ok (some ix) ∧
      (∃ (sa : String) (q : Int), (some "s" : Option String) = some sa ∧
        (.ok 5 : Except String Int) = .ok q ∧
        ix.data = 2 :: (bytesLE 4
          ([(⟨List.replicate 32 2, 222⟩ : Seed), ⟨List.replicate 32 1, 111⟩]).length ++
          ([(⟨List.replicate 32 2, 222⟩ : Seed),
            ⟨List.replicate 32 1, 111⟩]).flatMap (fun s => bytesLE 8 s.amount_u64) ++
          encodeSalt32 sa ++ bytesLE 8 q.toNat)) ∧
      ix.keys = [⟨Pubkey.base58 "payer", true, true⟩,
          ⟨FEE_ACCOUNT_PUBKEY, false, true⟩, ⟨CONFIG_ACCOUNT, false, false⟩,
          ⟨Pubkey.base58 ((some "P" : Option String).getD ""), false, true⟩,
          ⟨systemProgramId, false, false⟩, ⟨TOKEN_PROGRAM_ID, false, false⟩,
          ⟨SYSVAR_RENT_PUBKEY, false, false⟩] ++
        ([(⟨List.replicate 32 2, 222⟩ : Seed), ⟨List.replicate 32 1, 111⟩]).map
          (fun s => (⟨Pubkey.bytes s.mint, false, false⟩ : AccountMeta)) ++
        ([Pubkey.base58 "t1", Pubkey.base58 "t2", Pubkey.base58 "t3",
          Pubkey.base58 "t4", Pubkey.base58 "t5", Pubkey.base58 "t6"]).map
          (fun a => (⟨a, false, true⟩ : AccountMeta)) := by
  have hd : isOkSome (useRecipe (fun _ => .ok 5) (Pubkey.base58 "payer")
      { pda := some "P",
        seeds := some [⟨List.replicate 32 2, 222⟩, ⟨List.replicate 32 1, 111⟩],
        seedSalt := some "s", qty_requested := "1" }
      [Pubkey.base58 "t1", Pubkey.base58 "t2", Pubkey.base58 "t3",
       Pubkey.base58 "t4", Pubkey.base58 "t5", Pubkey.base58 "t6"] 2) = true := by
    decide
  obtain ⟨ix, hix⟩ := isOkSome_iff _ hd
  exact ⟨ix, hix, useRecipe_caller_order (fun _ => .ok 5) (Pubkey.base58 "payer")
    _ _ 2 ix [⟨List.replicate 32 2, 222⟩, ⟨List.replicate 32 1, 111⟩] rfl hix⟩

/-- C5 counterexample: an input whose `seeds` is the empty array passes
validation (an empty array is truthy, so the required-field loop does not
reject it) and createRecipe returns an instruction whose payload carries
seed count zero, instead of raising a ValidationError naming "seeds". -/
theorem emptySeeds_accepted :
    Except.map TransactionInstruction.data
      (createRecipe (Pubkey.base58 "payer")
        { seeds := some [], salt := some "random-salt", metadataCid := some "cid",
          name := some "Name", symbol := some "SYM", pda := none }) =
    .ok (1 :: (bytesLE 4 0 ++ encodeSalt32 "random-salt" ++
      (bytesLE 4 4 ++ utf8Bytes "Name") ++ (bytesLE 4 3 ++ utf8Bytes "SYM") ++
      (bytesLE 4 24 ++ utf8Bytes "https://ipfs.io/ipfs/cid"))) := by decide

/-- C5 amended: the validation rejects `seeds` with the message naming the
field only when the field is MISSING; a present seeds array — the empty
array included — passes the required-field check, and with the other fields
well-formed validation succeeds. -/
theorem seeds_validation_behavior :
    (∀ cd : CookedData, cd.seeds = none →
      validateCookedData cd = .error (missingFieldMsg "seeds")) ∧
    (∀ (cd : CookedData) (l : List Seed) (sa : String),
      cd.seeds = some l → truthy cd.metadataCid = true → truthy cd.name = true →
      truthy cd.symbol = true → cd.salt = some sa →
      (∀ s ∈ l, s.amount_u64 < 18446744073709551616) →
      ∃ v, validateCookedData cd = .ok v) :=
  ⟨fun _ h => validateCookedData_noSeeds h,
   fun _ _ _ hs hm hn hy hsa hamt => ⟨_, validateCookedData_isOk hs hm hn hy hsa hamt⟩⟩

/-- Witness for C5's amended statement: a missing seeds field is rejected
naming "seeds"; the same input with seeds present but EMPTY is accepted. -/
theorem seeds_validation_behavior_witness :
    validateCookedData
      { seeds := none, salt := some "s", metadataCid := some "m",
          name := some "n", symbol := some "y", pda := none } =
      .error (missingFieldMsg "seeds") ∧
    ∃ v, validateCookedData
      { seeds := some [], salt := some "s", metadataCid := some "m",
          name := some "n", symbol := some "y", pda := none } = .ok v :=
  ⟨seeds_validation_behavior.1 _ rfl,
   seeds_validation_behavior.2 _ [] "s" rfl (by decide) (by decide) (by decide) rfl
     (by simp)⟩

/-- C6 counterexample: validateCookedData returns the caller's own object
(the source sorts `cookedData.seeds` in place and writes `cookedData.pda`
before returning `cookedData` itself), and on an input whose seeds are out
of order that object has its seeds reordered and a pda field that was not
present in the input — the caller's data is NOT left unchanged. -/
theorem validateCookedData_mutates_input :
    Except.map CookedData.seeds
      (validateCookedData
        { seeds := some [⟨List.replicate 32 2, 6⟩, ⟨List.replicate 32 1, 5⟩],
          salt := some "s", metadataCid := some "m", name := some "n",
          symbol := some "y", pda := none }) =
      .ok (some [⟨List.replicate 32 1, 5⟩, ⟨List.replicate 32 2, 6⟩]) ∧
    Except.map CookedData.pda
      (validateCookedData
        { seeds := some [⟨List.replicate 32 2, 6⟩, ⟨List.replicate 32 1, 5⟩],
          salt := some "s", metadataCid := some "m", name := some "n",
          symbol := some "y", pda := none }) ≠ .ok none ∧
    ([(⟨List.replicate 32 2, 6⟩ : Seed), ⟨List.replicate 32 1, 5⟩] ≠
      [⟨List.replicate 32 1, 5⟩, ⟨List.replicate 32 2, 6⟩]) :=
  ⟨by decide, by decide, by decide⟩

/-- C6 amended: sortSeeds does return a new structure, leaving the caller's
input untouched — its result is the input with a sorted copy of the seeds
and every other field unchanged; validateCookedData however hands back the
caller's object with the seeds sorted in place and the pda field written. -/
theorem sortSeeds_new_validate_mutates :
    (∀ (cd : CookedData) (l : List Seed), cd.seeds = some l →
      sortSeeds cd = .ok { cd with seeds := some (List.insertionSort seedLeP l) }) ∧
    (∀ (cd v : CookedData), validateCookedData cd = .ok v →
      ∃ d, v = { cd with
        seeds := some (List.insertionSort seedLeP (cd.seeds.getD [])),
        pda := some d }) :=
  ⟨fun _ _ h => sortSeeds_some_ok h, fun _ _ h => validateCookedData_ok h⟩

/-- Witness for C6's amended statement at a concrete two-seed input. -/
theorem sortSeeds_new_validate_mutates_witness :
    sortSeeds
      { seeds := some [⟨List.replicate 32 2, 6⟩, ⟨List.replicate 32 1, 5⟩],
          salt := some "s", metadataCid := some "m", name := some "n",
          symbol := some "y", pda := none } =
      .ok { seeds := some (List.insertionSort seedLeP
              [⟨List.replicate 32 2, 6⟩, ⟨List.replicate 32 1, 5⟩]),
            salt := some "s", metadataCid := some "m", name := some "n",
            symbol := some "y", pda := none } ∧
    ∃ v, validateCookedData
        { seeds := some [⟨List.replicate 32 2, 6⟩, ⟨List.replicate 32 1, 5⟩],
            salt := some "s", metadataCid := some "m", name := some "n",
            symbol := some "y", pda := none } = .ok v ∧
      ∃ d, v = { seeds := some (List.insertionSort seedLeP
                     [⟨List.replicate 32 2, 6⟩, ⟨List.replicate 32 1, 5⟩]),
                 salt := some "s", metadataCid := some "m", name := some "n",
                 symbol := some "y", pda := some d } := by
  constructor
  · exact sortSeeds_new_validate_mutates.1 _
      [⟨List.replicate 32 2, 6⟩, ⟨List.replicate 32 1, 5⟩] rfl
  · have hd : isOkB (validateCookedData
        { seeds := some [⟨List.replicate 32 2, 6⟩, ⟨List.replicate 32 1, 5⟩],
          salt := some "s", metadataCid := some "m", name := some "n",
          symbol := some "y", pda := none }) = true := by decide
    obtain ⟨v, hv⟩ := isOkB_iff _ hd
    exact ⟨v, hv, sortSeeds_new_validate_mutates.2 _ v hv⟩
